import Mathlib

/-!
Shallow embedding of `src/partition.py`: a usage-driven partition
recommendation engine.  The core pipeline (steps 3-8 of `main`) is
embedded faithfully:

* `ColumnUsageRecord` models the dict returned by
  `extract_columns_metadata` (one per parsed log line).
* Step 3 keeps five `collections.Counter`s, updated per record; a
  `Counter` is modelled as a total function `String → Nat` (a key is
  "present" iff its count is positive, since `Counter.update` only ever
  inserts keys with count ≥ 1).  The row order of the pandas
  `usage_stats` frame is the union of the counters' insertion orders,
  i.e. first-occurrence order over the concatenated role lists
  (`columnsOf`).
* Step 4 calls `get_column_cardinality`, which returns an `int` or
  `None`; its result per column is the parameter
  `resolve : String → Option Nat`.  The guard `if count:` keeps only
  truthy results, so `None` and `0` are both dropped
  (`cardinalityLookup`).
* Step 5's left merge leaves `NaN` in the `cardinality` column for
  dropped measurements; a `NaN` comparison in Python is always `False`,
  which `cardGt`/`cardLt` reproduce on `Option Nat` with `none`.
* Step 6 is `classifyRow`/`partition_columns`, step 7 is
  `generate_partition_spec`, step 8's branch on the truthiness of the
  spec string is `runOutcome`.
-/

/-- Output of `extract_columns_metadata` for one log entry: the ordered
column lists per clause role. -/
structure ColumnUsageRecord where
  select : List String
  where_ : List String
  join : List String
  group_by : List String
  order_by : List String

/-- The five per-role `Counter`s of step 3, as total functions
(`0` = key absent). -/
structure UsageTotals where
  select : String → Nat
  where_ : String → Nat
  join : String → Nat
  group_by : String → Nat
  order_by : String → Nat

/-- `Counter.update(xs)`: add the multiplicity of each element of `xs`. -/
def counterUpdate (c : String → Nat) (xs : List String) : String → Nat :=
  fun k => c k + xs.count k

/-- One iteration of the aggregation loop over `df_logs`. -/
def aggStep (t : UsageTotals) (r : ColumnUsageRecord) : UsageTotals :=
  { select := counterUpdate t.select r.select
    where_ := counterUpdate t.where_ r.where_
    join := counterUpdate t.join r.join
    group_by := counterUpdate t.group_by r.group_by
    order_by := counterUpdate t.order_by r.order_by }

/-- The empty `Counter`. -/
def emptyCounter : String → Nat := fun _ => 0

/-- Step 3: fold all records into the five counters. -/
def aggregate (recs : List ColumnUsageRecord) : UsageTotals :=
  recs.foldl aggStep ⟨emptyCounter, emptyCounter, emptyCounter, emptyCounter, emptyCounter⟩

/-- Keep the first occurrence of each element, dropping later
duplicates (insertion order of dict/Counter keys). -/
def dedupFirst (seen : List String) : List String → List String
  | [] => []
  | x :: xs => if x ∈ seen then dedupFirst seen xs else x :: dedupFirst (x :: seen) xs

/-- All role-list occurrences, in the key-insertion order of the five
counters (select keys first, then where, join, group_by, order_by). -/
def roleOccurrences (recs : List ColumnUsageRecord) : List String :=
  (recs.map ColumnUsageRecord.select).flatten
    ++ (recs.map ColumnUsageRecord.where_).flatten
    ++ (recs.map ColumnUsageRecord.join).flatten
    ++ (recs.map ColumnUsageRecord.group_by).flatten
    ++ (recs.map ColumnUsageRecord.order_by).flatten

/-- The row index of `usage_stats`: union of the counters' keys in
insertion order (`columns_to_check` in step 4). -/
def columnsOf (recs : List ColumnUsageRecord) : List String :=
  dedupFirst [] (roleOccurrences recs)

/-- Step 4's guard `if count:` — a measurement is stored in the
`cardinality` dict only when it is truthy, so `None` and `0` are both
dropped. -/
def cardinalityLookup (resolve : String → Option Nat) (col : String) : Option Nat :=
  match resolve col with
  | some count => if count ≠ 0 then some count else none
  | none => none

/-- The `HIGH_CARDINALITY_THRESHOLD` constant. -/
def HIGH_CARDINALITY_THRESHOLD : Nat := 100000

/-- The `LOW_CARDINALITY_THRESHOLD` constant. -/
def LOW_CARDINALITY_THRESHOLD : Nat := 1000

/-- `row['cardinality'] > t` on the merged frame: comparing the `NaN`
left by a missing measurement is `False` in Python. -/
def cardGt : Option Nat → Nat → Bool
  | none, _ => false
  | some c, t => c > t

/-- `row['cardinality'] < t` on the merged frame: `NaN < t` is `False`. -/
def cardLt : Option Nat → Nat → Bool
  | none, _ => false
  | some c, t => c < t

/-- A row of `merged_stats`: usage counters plus the (possibly missing)
cardinality. -/
structure UsageRow where
  column : String
  select : Nat
  where_ : Nat
  join : Nat
  group_by : Nat
  order_by : Nat
  cardinality : Option Nat
deriving DecidableEq

/-- The two strategies emitted by step 6. -/
inductive Strategy
  | hash
  | range
deriving DecidableEq

/-- One element of the `partition_columns` list. -/
structure Decision where
  column : String
  strategy : Strategy
deriving DecidableEq

/-- The body of the step-6 loop for one row of `merged_stats`. -/
def classifyRow (r : UsageRow) : Option Decision :=
  let usage_count := r.where_ + r.join + r.group_by + r.order_by
  if usage_count > 50 then
    if cardGt r.cardinality HIGH_CARDINALITY_THRESHOLD then
      some ⟨r.column, Strategy.hash⟩
    else if cardLt r.cardinality LOW_CARDINALITY_THRESHOLD then
      some ⟨r.column, Strategy.range⟩
    else
      some ⟨r.column, Strategy.range⟩
  else
    none

/-- Step 6: the loop over `merged_stats.iterrows()` appending a decision
per qualifying row. -/
def partition_columns (rows : List UsageRow) : List Decision :=
  rows.filterMap classifyRow

/-- The `merged_stats` row for one column. -/
def rowOf (recs : List ColumnUsageRecord) (resolve : String → Option Nat)
    (col : String) : UsageRow :=
  let t := aggregate recs
  { column := col
    select := t.select col
    where_ := t.where_ col
    join := t.join col
    group_by := t.group_by col
    order_by := t.order_by col
    cardinality := cardinalityLookup resolve col }

/-- Step 5: `merged_stats` as a list of rows (left merge of
`usage_stats` with the cardinality dict). -/
def usageRows (recs : List ColumnUsageRecord) (resolve : String → Option Nat) :
    List UsageRow :=
  (columnsOf recs).map (rowOf recs resolve)

/-- Render one decision: `HASH(<col>, 16)` for hash, the bare column
name for range. -/
def renderDecision (pc : Decision) : String :=
  match pc.strategy with
  | Strategy.hash => "HASH(" ++ pc.column ++ ", 16)"
  | Strategy.range => pc.column

/-- `generate_partition_spec`: render each decision and join with a
comma (`",".join(spec)`). -/
def generate_partition_spec (pcs : List Decision) : String :=
  String.intercalate "," (pcs.map renderDecision)

/-- Steps 3-6 of `main`: the decision list for a run. -/
def mainDecisions (recs : List ColumnUsageRecord) (resolve : String → Option Nat) :
    List Decision :=
  partition_columns (usageRows recs resolve)

/-- Step 7 of `main`: the rendered spec string for a run. -/
def mainSpec (recs : List ColumnUsageRecord) (resolve : String → Option Nat) : String :=
  generate_partition_spec (mainDecisions recs resolve)

/-- Step 8's two branches: apply the spec, or report that no suitable
partition columns were identified. -/
inductive RunOutcome
  | applied (spec : String)
  | noSuitable
deriving DecidableEq

/-- Step 8: `if partition_spec:` — a Python string is truthy iff
non-empty. -/
def runOutcome (spec : String) : RunOutcome :=
  if spec = "" then RunOutcome.noSuitable else RunOutcome.applied spec

/-- The `filter_usage` of a column under the aggregated totals
(`usage_count` at line 126). -/
def filterUsage (recs : List ColumnUsageRecord) (col : String) : Nat :=
  (aggregate recs).where_ col + (aggregate recs).join col
    + (aggregate recs).group_by col + (aggregate recs).order_by col

/-- Modelled from the spec: the round-trip reader of the rendered spec
string (section 8 of the design).  The repository has no parser for
spec strings, so this follows the spec's words: split on top-level
commas only — a comma at parenthesis depth zero separates tokens, a
comma inside `HASH(...)` does not.  Characters are accumulated in
reverse in `acc`. -/
def splitTopLevel : Nat → List Char → List Char → List (List Char)
  | _, acc, [] => [acc.reverse]
  | depth, acc, c :: rest =>
    if c = ',' ∧ depth = 0 then acc.reverse :: splitTopLevel 0 [] rest
    else if c = '(' then splitTopLevel (depth + 1) (c :: acc) rest
    else if c = ')' then splitTopLevel (depth - 1) (c :: acc) rest
    else splitTopLevel depth (c :: acc) rest

/-- Modelled from the spec: read one token back into a decision — a
function-call token `HASH(<col>, 16)` is a hash decision, a bare
identifier is a range decision. -/
def parseToken (cs : List Char) : Decision :=
  if cs.take 5 = "HASH(".data ∧ cs.drop (cs.length - 5) = ", 16)".data ∧ 10 ≤ cs.length then
    ⟨⟨(cs.drop 5).take (cs.length - 10)⟩, Strategy.hash⟩
  else
    ⟨⟨cs⟩, Strategy.range⟩

/-- Modelled from the spec: parse a rendered spec string back into a
decision list; the empty string denotes the empty list. -/
def parseSpec (s : String) : List Decision :=
  if s = "" then []
  else (splitTopLevel 0 [] s.data).map parseToken

-- Concrete inputs used by the witness and scenario theorems below.

def w1recs : List ColumnUsageRecord :=
  [⟨[], List.replicate 51 "a", [], [], []⟩]

def w1resolve : String → Option Nat := fun _ => none

def w2recsAt : List ColumnUsageRecord :=
  [⟨[], List.replicate 50 "a", [], [], []⟩]

def w2recsAbove : List ColumnUsageRecord :=
  [⟨[], List.replicate 51 "a", [], [], []⟩]

def w2resolve : String → Option Nat := fun _ => some 10

def w4recs : List ColumnUsageRecord :=
  [⟨List.replicate 200 "s", [], [], [], []⟩]

def w4resolve : String → Option Nat := fun _ => some 500000

def w5recs : List ColumnUsageRecord :=
  [⟨["x"], ["x", "y", "x"], [], ["z"], []⟩, ⟨[], ["y"], [], [], []⟩]

def w6recsA : List ColumnUsageRecord :=
  [⟨["x"], ["x", "y"], [], [], []⟩, ⟨[], ["y"], ["z"], [], []⟩]

def w6recsB : List ColumnUsageRecord :=
  [⟨[], ["y"], ["z"], [], []⟩, ⟨["x"], ["x", "y"], [], [], []⟩]

def w8recs : List ColumnUsageRecord :=
  [⟨["s"], List.replicate 50 "a", [], [], []⟩]

def w8resolve : String → Option Nat := fun _ => some 7

/-- The section-8 end-to-end scenario: `status` used 30 times in where
and 25 times in join, `region` used 60 times in where. -/
def scenarioRecs : List ColumnUsageRecord :=
  [{ select := []
     where_ := List.replicate 30 "status" ++ List.replicate 60 "region"
     join := List.replicate 25 "status"
     group_by := []
     order_by := [] }]

/-- The section-8 scenario resolver: cardinality 500000 for `status`,
50 for `region`. -/
def scenarioResolve : String → Option Nat :=
  fun c => if c = "status" then some 500000 else if c = "region" then some 50 else none

def w10recs : List ColumnUsageRecord :=
  [⟨[], List.replicate 51 "c", [], [], []⟩]

def w10resolve : String → Option Nat := fun _ => some 0

def w10resolveB : String → Option Nat :=
  fun c => if c = "c" then none else some 0

-- Basic lemmas about the embedding.

theorem aggregate_select (recs : List ColumnUsageRecord) (col : String) :
    (aggregate recs).select col = ((recs.map ColumnUsageRecord.select).flatten).count col := by
  suffices h : ∀ t : UsageTotals,
      (recs.foldl aggStep t).select col
        = t.select col + ((recs.map ColumnUsageRecord.select).flatten).count col by
    simpa [aggregate, emptyCounter] using h ⟨emptyCounter, emptyCounter, emptyCounter, emptyCounter, emptyCounter⟩
  induction recs with
  | nil => intro t; simp
  | cons r rs ih =>
      intro t
      simp [List.foldl_cons, ih, aggStep, counterUpdate, List.count_append, Nat.add_assoc]

theorem aggregate_where (recs : List ColumnUsageRecord) (col : String) :
    (aggregate recs).where_ col = ((recs.map ColumnUsageRecord.where_).flatten).count col := by
  suffices h : ∀ t : UsageTotals,
      (recs.foldl aggStep t).where_ col
        = t.where_ col + ((recs.map ColumnUsageRecord.where_).flatten).count col by
    simpa [aggregate, emptyCounter] using h ⟨emptyCounter, emptyCounter, emptyCounter, emptyCounter, emptyCounter⟩
  induction recs with
  | nil => intro t; simp
  | cons r rs ih =>
      intro t
      simp [List.foldl_cons, ih, aggStep, counterUpdate, List.count_append, Nat.add_assoc]

theorem aggregate_join (recs : List ColumnUsageRecord) (col : String) :
    (aggregate recs).join col = ((recs.map ColumnUsageRecord.join).flatten).count col := by
  suffices h : ∀ t : UsageTotals,
      (recs.foldl aggStep t).join col
        = t.join col + ((recs.map ColumnUsageRecord.join).flatten).count col by
    simpa [aggregate, emptyCounter] using h ⟨emptyCounter, emptyCounter, emptyCounter, emptyCounter, emptyCounter⟩
  induction recs with
  | nil => intro t; simp
  | cons r rs ih =>
      intro t
      simp [List.foldl_cons, ih, aggStep, counterUpdate, List.count_append, Nat.add_assoc]

theorem aggregate_group_by (recs : List ColumnUsageRecord) (col : String) :
    (aggregate recs).group_by col = ((recs.map ColumnUsageRecord.group_by).flatten).count col := by
  suffices h : ∀ t : UsageTotals,
      (recs.foldl aggStep t).group_by col
        = t.group_by col + ((recs.map ColumnUsageRecord.group_by).flatten).count col by
    simpa [aggregate, emptyCounter] using h ⟨emptyCounter, emptyCounter, emptyCounter, emptyCounter, emptyCounter⟩
  induction recs with
  | nil => intro t; simp
  | cons r rs ih =>
      intro t
      simp [List.foldl_cons, ih, aggStep, counterUpdate, List.count_append, Nat.add_assoc]

theorem aggregate_order_by (recs : List ColumnUsageRecord) (col : String) :
    (aggregate recs).order_by col = ((recs.map ColumnUsageRecord.order_by).flatten).count col := by
  suffices h : ∀ t : UsageTotals,
      (recs.foldl aggStep t).order_by col
        = t.order_by col + ((recs.map ColumnUsageRecord.order_by).flatten).count col by
    simpa [aggregate, emptyCounter] using h ⟨emptyCounter, emptyCounter, emptyCounter, emptyCounter, emptyCounter⟩
  induction recs with
  | nil => intro t; simp
  | cons r rs ih =>
      intro t
      simp [List.foldl_cons, ih, aggStep, counterUpdate, List.count_append, Nat.add_assoc]

theorem mem_dedupFirst (seen : List String) (l : List String) (x : String) :
    x ∈ dedupFirst seen l ↔ x ∉ seen ∧ x ∈ l := by
  induction l generalizing seen with
  | nil => simp [dedupFirst]
  | cons a as ih =>
      by_cases ha : a ∈ seen
      · rw [dedupFirst, if_pos ha, ih]
        constructor
        · rintro ⟨hx, hmem⟩
          exact ⟨hx, List.mem_cons_of_mem _ hmem⟩
        · rintro ⟨hx, hmem⟩
          rcases List.mem_cons.mp hmem with rfl | hmem
          · exact absurd ha hx
          · exact ⟨hx, hmem⟩
      · rw [dedupFirst, if_neg ha]
        constructor
        · intro hx
          rcases List.mem_cons.mp hx with rfl | hx
          · exact ⟨ha, List.mem_cons_self _ _⟩
          · rcases (ih (a :: seen)).mp hx with ⟨hs, hmem⟩
            exact ⟨fun h => hs (List.mem_cons_of_mem _ h), List.mem_cons_of_mem _ hmem⟩
        · rintro ⟨hs, hmem⟩
          rcases List.mem_cons.mp hmem with rfl | hmem
          · exact List.mem_cons_self _ _
          · by_cases hxa : x = a
            · subst hxa; exact List.mem_cons_self _ _
            · exact List.mem_cons_of_mem _
                ((ih (a :: seen)).mpr ⟨by simp [hxa, hs], hmem⟩)

theorem mem_columnsOf (recs : List ColumnUsageRecord) (col : String) :
    col ∈ columnsOf recs ↔ col ∈ roleOccurrences recs := by
  simp [columnsOf, mem_dedupFirst]

/-- Every decision emitted by `classifyRow` names the row's column. -/
theorem classifyRow_column (r : UsageRow) (d : Decision)
    (h : classifyRow r = some d) : d.column = r.column := by
  unfold classifyRow at h
  split_ifs at h <;> simp_all <;> simp [← h.2]

/-- With an unknown (merged-as-`NaN`) cardinality and filter usage over
the threshold, both comparisons at lines 128/130 are false and the
`else` branch emits a range decision. -/
theorem classifyRow_unknown (r : UsageRow)
    (hcard : r.cardinality = none)
    (husage : r.where_ + r.join + r.group_by + r.order_by > 50) :
    classifyRow r = some ⟨r.column, Strategy.range⟩ := by
  unfold classifyRow
  simp [husage, hcard, cardGt, cardLt]

/-- A row at or below the usage threshold emits no decision. -/
theorem classifyRow_le_threshold (r : UsageRow)
    (husage : r.where_ + r.join + r.group_by + r.order_by ≤ 50) :
    classifyRow r = none := by
  unfold classifyRow
  simp [Nat.not_lt.mpr husage]

/-- Membership in the run's decision list, unfolded to the per-column
classification. -/
theorem mem_mainDecisions (recs : List ColumnUsageRecord)
    (resolve : String → Option Nat) (d : Decision) :
    d ∈ mainDecisions recs resolve
      ↔ ∃ c ∈ columnsOf recs, classifyRow (rowOf recs resolve c) = some d := by
  simp [mainDecisions, partition_columns, usageRows, List.mem_filterMap, List.mem_map]

/-- A column with positive filter usage occurs in some non-select role
list, hence in the `usage_stats` index. -/
theorem mem_columnsOf_of_filterUsage_pos (recs : List ColumnUsageRecord)
    (col : String) (h : 0 < filterUsage recs col) :
    col ∈ columnsOf recs := by
  rw [mem_columnsOf]
  unfold filterUsage at h
  rw [aggregate_where, aggregate_join, aggregate_group_by, aggregate_order_by] at h
  unfold roleOccurrences
  rcases Nat.lt_of_lt_of_le h (Nat.le_refl _) with _
  by_contra hmem
  simp only [List.mem_append, not_or] at hmem
  obtain ⟨⟨⟨⟨_, h2⟩, h3⟩, h4⟩, h5⟩ := hmem
  rw [← List.count_pos_iff] at h2 h3 h4 h5
  omega

/-- The usage counters of a `merged_stats` row are the aggregated
counters of its column. -/
theorem rowOf_fields (recs : List ColumnUsageRecord)
    (resolve : String → Option Nat) (col : String) :
    (rowOf recs resolve col).column = col
      ∧ (rowOf recs resolve col).where_ + (rowOf recs resolve col).join
          + (rowOf recs resolve col).group_by + (rowOf recs resolve col).order_by
        = filterUsage recs col
      ∧ (rowOf recs resolve col).cardinality = cardinalityLookup resolve col := by
  refine ⟨rfl, rfl, rfl⟩

/-- Shared helper: a column whose measurement was dropped (so its merged
cardinality is `NaN`) and whose filter usage clears the threshold gets
exactly one decision, with strategy range. -/
theorem unknownCard_decisions (recs : List ColumnUsageRecord)
    (resolve : String → Option Nat) (col : String)
    (hcard : cardinalityLookup resolve col = none)
    (husage : filterUsage recs col > 50) :
    Decision.mk col Strategy.range ∈ mainDecisions recs resolve
      ∧ Decision.mk col Strategy.hash ∉ mainDecisions recs resolve := by
  have hmem : col ∈ columnsOf recs :=
    mem_columnsOf_of_filterUsage_pos recs col (by omega)
  have hclass : classifyRow (rowOf recs resolve col) = some ⟨col, Strategy.range⟩ := by
    have := classifyRow_unknown (rowOf recs resolve col)
      ((rowOf_fields recs resolve col).2.2.trans hcard)
      (by rw [(rowOf_fields recs resolve col).2.1]; exact husage)
    simpa [(rowOf_fields recs resolve col).1] using this
  constructor
  · exact (mem_mainDecisions recs resolve _).mpr ⟨col, hmem, hclass⟩
  · intro hcontra
    rcases (mem_mainDecisions recs resolve _).mp hcontra with ⟨c, hc, hcl⟩
    have hcol : (Decision.mk col Strategy.hash).column = (rowOf recs resolve c).column :=
      classifyRow_column _ _ hcl
    have : c = col := by simpa [(rowOf_fields recs resolve c).1] using hcol.symm
    subst this
    rw [hclass] at hcl
    simp at hcl

/-- A row strictly above the usage threshold always emits a decision
for its column (one of the three branches at lines 128-133 fires). -/
theorem classifyRow_gt_threshold (r : UsageRow)
    (husage : r.where_ + r.join + r.group_by + r.order_by > 50) :
    ∃ s, classifyRow r = some ⟨r.column, s⟩ := by
  unfold classifyRow
  simp only [husage, if_true, gt_iff_lt]
  split_ifs <;> exact ⟨_, rfl⟩

-- Claim theorems.

/-- C1: a column whose `filter_usage` exceeds the threshold and whose
cardinality measurement is unknown (the resolver returned `None`) is
merged as unknown — never as zero — and receives exactly a range
decision: it is in the decision list with strategy range and never with
strategy hash, and classification is total (no abort). -/
theorem claim_C1 (recs : List ColumnUsageRecord) (resolve : String → Option Nat)
    (col : String)
    (hres : resolve col = none)
    (husage : filterUsage recs col > 50) :
    (rowOf recs resolve col).cardinality = none
      ∧ Decision.mk col Strategy.range ∈ mainDecisions recs resolve
      ∧ Decision.mk col Strategy.hash ∉ mainDecisions recs resolve := by
  have hcard : cardinalityLookup resolve col = none := by
    simp [cardinalityLookup, hres]
  exact ⟨(rowOf_fields recs resolve col).2.2.trans hcard,
    unknownCard_decisions recs resolve col hcard husage⟩

theorem claim_C1_witness :
    (rowOf w1recs w1resolve "a").cardinality = none
      ∧ Decision.mk "a" Strategy.range ∈ mainDecisions w1recs w1resolve
      ∧ Decision.mk "a" Strategy.hash ∉ mainDecisions w1recs w1resolve :=
  claim_C1 w1recs w1resolve "a" rfl (by decide)

/-- Shared helper: a column at or below the usage threshold is never
named by any emitted decision. -/
theorem no_decision_of_le_threshold (recs : List ColumnUsageRecord)
    (resolve : String → Option Nat) (col : String)
    (husage : filterUsage recs col ≤ 50) :
    ∀ d ∈ mainDecisions recs resolve, d.column ≠ col := by
  intro d hd hcol
  rcases (mem_mainDecisions recs resolve d).mp hd with ⟨c, hc, hcl⟩
  have hcc : d.column = c := by
    simpa [(rowOf_fields recs resolve c).1] using classifyRow_column _ _ hcl
  rw [hcol] at hcc
  rw [← hcc] at hcl
  rw [classifyRow_le_threshold (rowOf recs resolve col)
    (by rw [(rowOf_fields recs resolve col).2.1]; omega)] at hcl
  exact Option.noConfusion hcl

/-- C2: `filter_usage` exactly at the threshold (50) emits no decision
for the column; at threshold plus one (51) a decision for the column is
emitted — the comparison at line 127 is strict. -/
theorem claim_C2 (recs : List ColumnUsageRecord) (resolve : String → Option Nat)
    (col : String) :
    (filterUsage recs col = 50 → ∀ d ∈ mainDecisions recs resolve, d.column ≠ col)
      ∧ (filterUsage recs col = 51 →
          ∃ d ∈ mainDecisions recs resolve, d.column = col) := by
  constructor
  · intro h
    exact no_decision_of_le_threshold recs resolve col (by omega)
  · intro h
    have hmem : col ∈ columnsOf recs :=
      mem_columnsOf_of_filterUsage_pos recs col (by omega)
    obtain ⟨s, hs⟩ := classifyRow_gt_threshold (rowOf recs resolve col)
      (by rw [(rowOf_fields recs resolve col).2.1]; omega)
    refine ⟨⟨col, s⟩, ?_, rfl⟩
    exact (mem_mainDecisions recs resolve _).mpr
      ⟨col, hmem, by simpa [(rowOf_fields recs resolve col).1] using hs⟩

theorem claim_C2_witness :
    (∀ d ∈ mainDecisions w2recsAt w2resolve, d.column ≠ "a")
      ∧ ∃ d ∈ mainDecisions w2recsAbove w2resolve, d.column = "a" :=
  ⟨(claim_C2 w2recsAt w2resolve "a").1 (by decide),
   (claim_C2 w2recsAbove w2resolve "a").2 (by decide)⟩

/-- C3: with filter usage over the threshold and a known cardinality,
cardinality exactly 100000 fails the strict `>` at line 128 and yields
range; exactly 1000 fails the strict `<` at line 130 (so the default
branch, not the low branch, is taken) and yields range; strictly above
100000 yields hash. -/
theorem claim_C3 (r : UsageRow)
    (husage : r.where_ + r.join + r.group_by + r.order_by > 50) :
    (r.cardinality = some HIGH_CARDINALITY_THRESHOLD →
        cardGt r.cardinality HIGH_CARDINALITY_THRESHOLD = false
          ∧ classifyRow r = some ⟨r.column, Strategy.range⟩)
      ∧ (r.cardinality = some LOW_CARDINALITY_THRESHOLD →
          cardLt r.cardinality LOW_CARDINALITY_THRESHOLD = false
            ∧ classifyRow r = some ⟨r.column, Strategy.range⟩)
      ∧ (∀ c, r.cardinality = some c → c > HIGH_CARDINALITY_THRESHOLD →
          classifyRow r = some ⟨r.column, Strategy.hash⟩) := by
  refine ⟨?_, ?_, ?_⟩
  · intro hcard
    constructor
    · simp [cardGt, hcard]
    · unfold classifyRow
      rw [if_pos husage]
      simp [cardGt, cardLt, hcard, HIGH_CARDINALITY_THRESHOLD, LOW_CARDINALITY_THRESHOLD]
  · intro hcard
    constructor
    · simp [cardLt, hcard]
    · unfold classifyRow
      rw [if_pos husage]
      simp [cardGt, cardLt, hcard, HIGH_CARDINALITY_THRESHOLD, LOW_CARDINALITY_THRESHOLD]
  · intro c hcard hc
    unfold classifyRow
    rw [if_pos husage]
    simp [cardGt, hcard, hc]

theorem claim_C3_witness :
    (cardGt (UsageRow.mk "a" 0 51 0 0 0 (some 100000)).cardinality HIGH_CARDINALITY_THRESHOLD = false
        ∧ classifyRow (UsageRow.mk "a" 0 51 0 0 0 (some 100000)) = some ⟨"a", Strategy.range⟩)
      ∧ (cardLt (UsageRow.mk "a" 0 51 0 0 0 (some 1000)).cardinality LOW_CARDINALITY_THRESHOLD = false
          ∧ classifyRow (UsageRow.mk "a" 0 51 0 0 0 (some 1000)) = some ⟨"a", Strategy.range⟩)
      ∧ classifyRow (UsageRow.mk "a" 0 51 0 0 0 (some 100001)) = some ⟨"a", Strategy.hash⟩ :=
  ⟨(claim_C3 ⟨"a", 0, 51, 0, 0, 0, some 100000⟩ (by decide)).1 rfl,
   (claim_C3 ⟨"a", 0, 51, 0, 0, 0, some 1000⟩ (by decide)).2.1 rfl,
   (claim_C3 ⟨"a", 0, 51, 0, 0, 0, some 100001⟩ (by decide)).2.2 100001 rfl (by decide)⟩

/-- C4: a column referenced only in the select role — no occurrence in
any where/join/group_by/order_by list of any record — never appears in
the decision list, whatever the resolver reports. -/
theorem claim_C4 (recs : List ColumnUsageRecord) (resolve : String → Option Nat)
    (col : String)
    (h : ∀ r ∈ recs, col ∉ r.where_ ∧ col ∉ r.join
          ∧ col ∉ r.group_by ∧ col ∉ r.order_by) :
    ∀ d ∈ mainDecisions recs resolve, d.column ≠ col := by
  apply no_decision_of_le_threshold
  have habs : ∀ f : ColumnUsageRecord → List String,
      (∀ r ∈ recs, col ∉ f r) → ((recs.map f).flatten).count col = 0 := by
    intro f hf
    rw [List.count_eq_zero]
    intro hmem
    rcases List.mem_flatten.mp hmem with ⟨l, hl, hcl⟩
    rcases List.mem_map.mp hl with ⟨r, hr, rfl⟩
    exact hf r hr hcl
  unfold filterUsage
  rw [aggregate_where, aggregate_join, aggregate_group_by, aggregate_order_by,
    habs _ (fun r hr => (h r hr).1), habs _ (fun r hr => (h r hr).2.1),
    habs _ (fun r hr => (h r hr).2.2.1), habs _ (fun r hr => (h r hr).2.2.2)]
  omega

theorem claim_C4_witness :
    Decision.mk "s" Strategy.hash ∉ mainDecisions w4recs w4resolve :=
  fun hmem => claim_C4 w4recs w4resolve "s" (by decide) ⟨"s", Strategy.hash⟩ hmem rfl

/-- C5: aggregation is count-preserving — each per-role counter equals
the number of occurrences of the column in that role across all
records (duplicates within a record each counted) — and a column absent
from every role list of every record has no row in `usage_stats`. -/
theorem claim_C5 (recs : List ColumnUsageRecord) (col : String) :
    ((aggregate recs).select col = ((recs.map ColumnUsageRecord.select).flatten).count col
        ∧ (aggregate recs).where_ col = ((recs.map ColumnUsageRecord.where_).flatten).count col
        ∧ (aggregate recs).join col = ((recs.map ColumnUsageRecord.join).flatten).count col
        ∧ (aggregate recs).group_by col = ((recs.map ColumnUsageRecord.group_by).flatten).count col
        ∧ (aggregate recs).order_by col = ((recs.map ColumnUsageRecord.order_by).flatten).count col)
      ∧ (col ∉ roleOccurrences recs → col ∉ columnsOf recs) :=
  ⟨⟨aggregate_select recs col, aggregate_where recs col, aggregate_join recs col,
      aggregate_group_by recs col, aggregate_order_by recs col⟩,
   fun h hmem => h ((mem_columnsOf recs col).mp hmem)⟩

theorem claim_C5_witness :
    (aggregate w5recs).where_ "x" = ((w5recs.map ColumnUsageRecord.where_).flatten).count "x"
      ∧ "q" ∉ columnsOf w5recs :=
  ⟨(claim_C5 w5recs "x").1.2.1, (claim_C5 w5recs "q").2 (by decide)⟩

/-- C6: aggregation is order-independent — permuting the record
sequence leaves every (column, role) counter unchanged. -/
theorem claim_C6 (recs recsP : List ColumnUsageRecord) (h : recs.Perm recsP)
    (col : String) :
    (aggregate recs).select col = (aggregate recsP).select col
      ∧ (aggregate recs).where_ col = (aggregate recsP).where_ col
      ∧ (aggregate recs).join col = (aggregate recsP).join col
      ∧ (aggregate recs).group_by col = (aggregate recsP).group_by col
      ∧ (aggregate recs).order_by col = (aggregate recsP).order_by col := by
  refine ⟨?_, ?_, ?_, ?_, ?_⟩
  · rw [aggregate_select, aggregate_select]
    exact ((h.map ColumnUsageRecord.select).flatten).count_eq col
  · rw [aggregate_where, aggregate_where]
    exact ((h.map ColumnUsageRecord.where_).flatten).count_eq col
  · rw [aggregate_join, aggregate_join]
    exact ((h.map ColumnUsageRecord.join).flatten).count_eq col
  · rw [aggregate_group_by, aggregate_group_by]
    exact ((h.map ColumnUsageRecord.group_by).flatten).count_eq col
  · rw [aggregate_order_by, aggregate_order_by]
    exact ((h.map ColumnUsageRecord.order_by).flatten).count_eq col

theorem claim_C6_witness :
    (aggregate w6recsA).select "y" = (aggregate w6recsB).select "y"
      ∧ (aggregate w6recsA).where_ "y" = (aggregate w6recsB).where_ "y"
      ∧ (aggregate w6recsA).join "y" = (aggregate w6recsB).join "y"
      ∧ (aggregate w6recsA).group_by "y" = (aggregate w6recsB).group_by "y"
      ∧ (aggregate w6recsA).order_by "y" = (aggregate w6recsB).order_by "y" :=
  claim_C6 w6recsA w6recsB (List.Perm.swap _ _ _) "y"

/-- `String.intercalate.go` pulls its accumulator out front when the
remaining list is a cons. -/
theorem intercalate_go_cons (s : String) (as : List String) :
    ∀ (a acc : String),
      String.intercalate.go acc s (a :: as) = acc ++ s ++ String.intercalate.go a s as := by
  induction as with
  | nil => intro a acc; rfl
  | cons b bs ih =>
      intro a acc
      have h1 : String.intercalate.go acc s (a :: b :: bs)
          = String.intercalate.go (acc ++ s ++ a) s (b :: bs) := rfl
      rw [h1, ih b (acc ++ s ++ a), ih b a]
      simp [String.append_assoc]

/-- Joining a non-singleton list inserts exactly one comma between the
head token and the rendered tail. -/
theorem generate_partition_spec_cons (d e : Decision) (ds : List Decision) :
    generate_partition_spec (d :: e :: ds)
      = renderDecision d ++ "," ++ generate_partition_spec (e :: ds) := by
  unfold generate_partition_spec
  simp only [List.map_cons, String.intercalate]
  exact intercalate_go_cons "," (ds.map renderDecision) (renderDecision e) (renderDecision d)

/-- C7: a hash decision renders as `HASH(<col>, 16)` and a range
decision as the bare column name; tokens are joined by a single comma
and the empty list renders as the empty string; the section-8 example
list renders to `HASH(colA, 16),colB` and parsing that string on
top-level commas recovers the same decision list. -/
theorem claim_C7 :
    (∀ col : String, renderDecision ⟨col, Strategy.hash⟩ = "HASH(" ++ col ++ ", 16)")
      ∧ (∀ col : String, renderDecision ⟨col, Strategy.range⟩ = col)
      ∧ generate_partition_spec [] = ""
      ∧ (∀ (d : Decision) (ds : List Decision), ds ≠ [] →
          generate_partition_spec (d :: ds)
            = renderDecision d ++ "," ++ generate_partition_spec ds)
      ∧ generate_partition_spec [⟨"colA", Strategy.hash⟩, ⟨"colB", Strategy.range⟩]
          = "HASH(colA, 16),colB"
      ∧ parseSpec "HASH(colA, 16),colB"
          = [⟨"colA", Strategy.hash⟩, ⟨"colB", Strategy.range⟩] := by
  refine ⟨fun col => rfl, fun col => rfl, rfl, ?_, by decide, by decide⟩
  intro d ds hds
  cases ds with
  | nil => exact absurd rfl hds
  | cons e es => exact generate_partition_spec_cons d e es

theorem claim_C7_witness :
    generate_partition_spec
        [Decision.mk "colA" Strategy.hash, Decision.mk "colB" Strategy.range]
      = renderDecision (Decision.mk "colA" Strategy.hash) ++ ","
          ++ generate_partition_spec [Decision.mk "colB" Strategy.range] :=
  claim_C7.2.2.2.1 ⟨"colA", Strategy.hash⟩ [⟨"colB", Strategy.range⟩] (by decide)

/-- C8: when no column's filter usage exceeds the threshold the
decision list is empty, the spec string is empty, step 8 takes the
"no suitable partition columns identified" branch rather than the
apply branch, and the empty outcome is stable: any rerun (with any
resolver, since cardinality is never consulted below the threshold)
yields the same empty list. -/
theorem claim_C8 (recs : List ColumnUsageRecord) (resolve : String → Option Nat)
    (h : ∀ col ∈ columnsOf recs, filterUsage recs col ≤ 50) :
    mainDecisions recs resolve = []
      ∧ mainSpec recs resolve = ""
      ∧ runOutcome (mainSpec recs resolve) = RunOutcome.noSuitable
      ∧ ∀ resolveB : String → Option Nat, mainDecisions recs resolveB = [] := by
  have hnil : ∀ resolveB : String → Option Nat, mainDecisions recs resolveB = [] := by
    intro resolveB
    unfold mainDecisions partition_columns usageRows
    rw [List.filterMap_map]
    apply List.filterMap_eq_nil_iff.mpr
    intro col hcol
    simp only [Function.comp_apply]
    exact classifyRow_le_threshold (rowOf recs resolveB col)
      (by rw [(rowOf_fields recs resolveB col).2.1]; exact h col hcol)
  have hspec : mainSpec recs resolve = "" := by
    unfold mainSpec
    rw [hnil resolve]
    rfl
  exact ⟨hnil resolve, hspec, by rw [hspec]; rfl, hnil⟩

theorem claim_C8_witness :
    mainDecisions w8recs w8resolve = []
      ∧ mainSpec w8recs w8resolve = ""
      ∧ runOutcome (mainSpec w8recs w8resolve) = RunOutcome.noSuitable
      ∧ ∀ resolveB : String → Option Nat, mainDecisions w8recs resolveB = [] :=
  claim_C8 w8recs w8resolve (by decide)

/-- C9: in the section-8 scenario — `status` with where=30, join=25
(filter usage 55) and cardinality 500000, `region` with where=60 and
cardinality 50 — the run emits (status, hash) then (region, range) and
renders the spec `HASH(status, 16),region`. -/
theorem claim_C9 :
    mainDecisions scenarioRecs scenarioResolve
        = [⟨"status", Strategy.hash⟩, ⟨"region", Strategy.range⟩]
      ∧ renderDecision ⟨"status", Strategy.hash⟩ = "HASH(status, 16)"
      ∧ renderDecision ⟨"region", Strategy.range⟩ = "region"
      ∧ mainSpec scenarioRecs scenarioResolve = "HASH(status, 16),region" := by
  refine ⟨by decide, rfl, rfl, by decide⟩

/-- C10: a resolver result of exactly 0 distinct values is dropped by
the truthiness guard `if count:`, so the merged cardinality is unknown
(`NaN`), the column (if its filter usage clears the threshold) gets a
range decision and never hash, and the whole decision list is the same
as if the resolver had reported unknown for that column. -/
theorem claim_C10 (recs : List ColumnUsageRecord) (resolve : String → Option Nat)
    (col : String) (hres : resolve col = some 0) :
    cardinalityLookup resolve col = none
      ∧ (filterUsage recs col > 50 →
          Decision.mk col Strategy.range ∈ mainDecisions recs resolve
            ∧ Decision.mk col Strategy.hash ∉ mainDecisions recs resolve)
      ∧ ∀ resolveB : String → Option Nat,
          (∀ c, c ≠ col → resolveB c = resolve c) → resolveB col = none →
          mainDecisions recs resolveB = mainDecisions recs resolve := by
  have hcard : cardinalityLookup resolve col = none := by
    simp [cardinalityLookup, hres]
  refine ⟨hcard, fun husage => unknownCard_decisions recs resolve col hcard husage, ?_⟩
  intro resolveB hB hBcol
  unfold mainDecisions partition_columns usageRows
  congr 1
  apply List.map_congr_left
  intro c _
  have hlook : cardinalityLookup resolveB c = cardinalityLookup resolve c := by
    by_cases hc : c = col
    · subst hc
      rw [hcard]
      simp [cardinalityLookup, hBcol]
    · unfold cardinalityLookup
      rw [hB c hc]
  unfold rowOf
  rw [hlook]

theorem claim_C10_witness :
    cardinalityLookup w10resolve "c" = none
      ∧ (Decision.mk "c" Strategy.range ∈ mainDecisions w10recs w10resolve
          ∧ Decision.mk "c" Strategy.hash ∉ mainDecisions w10recs w10resolve)
      ∧ mainDecisions w10recs w10resolveB = mainDecisions w10recs w10resolve :=
  ⟨(claim_C10 w10recs w10resolve "c" rfl).1,
   (claim_C10 w10recs w10resolve "c" rfl).2.1 (by decide),
   (claim_C10 w10recs w10resolve "c" rfl).2.2 w10resolveB
     (fun c hc => by simp [w10resolveB, w10resolve, hc]) (by simp [w10resolveB])⟩
